import Mathlib

/-!
Verification development for the Context-Sensei transcript-analysis backend.

The definitions below are a shallow embedding of `src/utils/textAnalysis.ts`
(class `TextAnalyzer`) and of the task-creation part of `utils/ai.ts`
(class `AIAnalyzer`, consumed by `TextAnalyzer.analyze`).

Modelling conventions:
  - JavaScript strings are Lean `String`s; all scanning is done on `String.data`
    (`List Char`).  Inputs are ASCII, and the ASCII-only `Char.toLower` and
    `Char.toUpper` model JavaScript case conversion.
  - Each JavaScript regular expression used by the source is translated into an
    explicit scanning function with the same leftmost-match / alternation-order
    / greedy-or-lazy semantics on the character list.
  - Luxon `DateTime`s that the pipeline produces are calendar dates at start of
    day; they are modelled by the `Date` structure below, with day arithmetic
    through a days-since-epoch conversion (proleptic Gregorian calendar,
    sound for years >= 1, which covers every date the pipeline handles).
    `DateTime.local()` (the processing date) is passed explicitly as `today`,
    and `Math.random()`-generated identifiers are modelled by an explicit
    stream `ids : Nat -> String` consumed at successive indices.
  - The 60% threshold `x >= min * 0.6` of the merge engine is modelled as the
    exact rational comparison `5 * x >= 3 * min`, which agrees with the
    floating-point computation for all realistic token counts.
-/

namespace CS

/-! ### Character and string helpers (JavaScript semantics) -/

/-- Whitespace class, modelling the characters of `\s` that can occur in
transcripts. -/
def isWsChar (c : Char) : Bool :=
  c = ' ' || c = '\t' || c = '\n' || c = '\r'

/-- Word-character class `\w` of JavaScript regular expressions. -/
def isWordChar (c : Char) : Bool :=
  (('a' ≤ c && c ≤ 'z') || ('A' ≤ c && c ≤ 'Z') || ('0' ≤ c && c ≤ '9') || c = '_')

/-- ASCII lower-casing of a character list (JavaScript `toLowerCase`). -/
def lowerL (l : List Char) : List Char := l.map Char.toLower

/-- ASCII upper-casing of a string (JavaScript `toUpperCase`). -/
def upperStr (s : String) : String := ⟨s.data.map Char.toUpper⟩

/-- The apostrophe character, referred to by code point. -/
def apoChar : Char := Char.ofNat 39

/-- The apostrophe as a one-character string. -/
def apoS : String := String.singleton apoChar

/-- Case-insensitive match of the (lower-case) pattern `p` against a prefix of
`l`; returns the remainder on success. -/
def stripCI : List Char → List Char → Option (List Char)
  | [], l => some l
  | _, [] => none
  | p :: ps, c :: cs => if p = c.toLower then stripCI ps cs else none

/-- Case-insensitive containment of the (lower-case) literal `p` in `l`,
modelling `/.../i.test` for a plain literal. -/
def containsLit (p : List Char) : List Char → Bool
  | [] => (stripCI p []).isSome
  | l@(_ :: t) => (stripCI p l).isSome || containsLit p t

/-- True when any of the (lower-case) literals occurs in `l`. -/
def containsAnyLit (l : List Char) (ps : List String) : Bool :=
  ps.any fun p => containsLit p.data l

/-- Helper for `inOrderNoNl`: look for literal `b` further right without
crossing a newline (the `.` of JavaScript regexes does not match `\n`). -/
def seekNoNl (b : List Char) : List Char → Bool
  | [] => (stripCI b []).isSome
  | l@(c :: t) => (stripCI b l).isSome || (c ≠ '\n' && seekNoNl b t)

/-- Model of `/a.*?b/i.test`: an occurrence of `a` followed by `b` with no
newline in between. -/
def inOrderNoNl (l : List Char) (a b : List Char) : Bool :=
  (match stripCI a l with
   | some r => seekNoNl b r
   | none => false) ||
  (match l with
   | [] => false
   | _ :: t => inOrderNoNl t a b)

/-- JavaScript `String.prototype.trim` on a character list. -/
def jsTrim (l : List Char) : List Char :=
  ((l.dropWhile isWsChar).reverse.dropWhile isWsChar).reverse

/-- Replace the first occurrence of `pat` in `l` by `rep` (JavaScript
`String.prototype.replace` with a plain-string pattern). -/
def replaceFirstL (pat rep : List Char) : List Char → List Char
  | [] => []
  | l@(c :: t) =>
    if pat.isPrefixOf l then rep ++ l.drop pat.length
    else c :: replaceFirstL pat rep t

/-- Split a character list at a given character, keeping empty pieces
(JavaScript `split` with a one-character separator). -/
def splitOnChar (sep : Char) : List Char → List (List Char)
  | [] => [[]]
  | c :: t =>
    match splitOnChar sep t with
    | [] => if c = sep then [[], []] else [[c]]
    | h :: r => if c = sep then [] :: h :: r else (c :: h) :: r

/-- Worker for `jsSplitWs`: `inWs` records whether the scanner is inside a
whitespace run (whose enclosing token has already been emitted). -/
def jsSplitWsAux : Bool → List Char → List (List Char) → List Char → List (List Char)
  | inWs, cur, acc, [] =>
    if inWs then ([] :: acc).reverse else (cur.reverse :: acc).reverse
  | true, _, acc, c :: rest =>
    if isWsChar c then jsSplitWsAux true [] acc rest
    else jsSplitWsAux false [c] acc rest
  | false, cur, acc, c :: rest =>
    if isWsChar c then jsSplitWsAux true [] (cur.reverse :: acc) rest
    else jsSplitWsAux false (c :: cur) acc rest

/-- JavaScript `split(/\s+/)`: pieces between maximal whitespace runs,
including empty leading/trailing pieces, and `[""]` on the empty string. -/
def jsSplitWs (l : List Char) : List (List Char) :=
  jsSplitWsAux false [] [] l

/-- Join a list of strings with single spaces (JavaScript `Array.join(' ')`). -/
def joinSp : List String → String
  | [] => ""
  | [s] => s
  | s :: s' :: rest => s ++ " " ++ joinSp (s' :: rest)

/-- Digit run to a number (JavaScript `parseInt` on a digit-only string). -/
def digitsToNat (l : List Char) : Nat :=
  l.foldl (fun a c => a * 10 + (c.toNat - 48)) 0

/-! ### Calendar dates -/

/-- A calendar date (the date part of a Luxon `DateTime` at start of day). -/
structure Date where
  year : Nat
  month : Nat
  day : Nat
deriving DecidableEq, Repr

/-- Gregorian leap-year test. -/
def isLeapYear (y : Nat) : Bool :=
  (y % 4 = 0 && y % 100 ≠ 0) || y % 400 = 0

/-- Number of days of a month. -/
def daysInMonth (y m : Nat) : Nat :=
  if m = 2 then (if isLeapYear y then 29 else 28)
  else if m = 4 || m = 6 || m = 9 || m = 11 then 30
  else 31

/-- Days since 0000-03-01 of the proleptic Gregorian calendar (sound for
`year >= 1`; the pipeline only handles contemporary dates). -/
def Date.toDays (d : Date) : Nat :=
  let y := if d.month ≤ 2 then d.year - 1 else d.year
  let era := y / 400
  let yoe := y % 400
  let mp := (d.month + 9) % 12
  let doy := (153 * mp + 2) / 5 + d.day - 1
  let doe := yoe * 365 + yoe / 4 - yoe / 100 + doy
  era * 146097 + doe

/-- Inverse of `Date.toDays`. -/
def Date.ofDays (z : Nat) : Date :=
  let era := z / 146097
  let doe := z % 146097
  let yoe := (doe - doe / 1460 + doe / 36524 - doe / 146096) / 365
  let y := yoe + era * 400
  let doy := doe - (365 * yoe + yoe / 4 - yoe / 100)
  let mp := (5 * doy + 2) / 153
  let d := doy - (153 * mp + 2) / 5 + 1
  let m := if mp < 10 then mp + 3 else mp - 9
  ⟨if m ≤ 2 then y + 1 else y, m, d⟩

/-- Add a number of days (Luxon `plus({days})`). -/
def Date.addDays (d : Date) (n : Nat) : Date :=
  Date.ofDays (d.toDays + n)

/-- Add a possibly negative number of days. -/
def Date.addDaysI (d : Date) (k : Int) : Date :=
  Date.ofDays (((d.toDays : Int) + k).toNat)

/-- Strict chronological order on dates (Luxon `<`). -/
def Date.lt (a b : Date) : Bool := a.toDays < b.toDays

/-- ISO weekday (Monday = 1 … Sunday = 7), as used by Luxon. -/
def Date.isoWeekday (d : Date) : Nat := (d.toDays + 2) % 7 + 1

/-- Luxon `set({weekday: w})`: the date of the same ISO week with the given
weekday. -/
def Date.setISOWeekday (d : Date) (w : Nat) : Date :=
  d.addDaysI ((w : Int) - (d.isoWeekday : Int))

/-- Luxon `startOf('week')`: the Monday of the date's ISO week. -/
def Date.startOfWeek (d : Date) : Date :=
  d.addDaysI (1 - (d.isoWeekday : Int))

/-- The date part of Luxon `endOf('week')`: the Sunday of the ISO week. -/
def Date.endOfWeekDate (d : Date) : Date :=
  d.addDays (7 - d.isoWeekday)

/-- Luxon `plus({months})` (clamping the day to the target month's length). -/
def Date.addMonths (d : Date) (n : Nat) : Date :=
  let t := d.month - 1 + n
  let y := d.year + t / 12
  let m := t % 12 + 1
  ⟨y, m, min d.day (daysInMonth y m)⟩

/-- First day of the month (Luxon `startOf('month')`). -/
def Date.startOfMonth (d : Date) : Date := ⟨d.year, d.month, 1⟩

/-- Last day of the month (the date part of Luxon `endOf('month')`). -/
def Date.endOfMonthDate (d : Date) : Date :=
  ⟨d.year, d.month, daysInMonth d.year d.month⟩

/-- Luxon `plus({years})` (clamping 29 February to 28 on non-leap years). -/
def Date.addYears (d : Date) (n : Nat) : Date :=
  ⟨d.year + n, d.month, min d.day (daysInMonth (d.year + n) d.month)⟩

/-- Validity of a year/month/day triple as a real calendar date. -/
def isValidDate (y m d : Nat) : Bool :=
  1 ≤ m && m ≤ 12 && 1 ≤ d && d ≤ daysInMonth y m

/-! ### The task data model (`src/types`) -/

/-- Priorities of `Task.priority`. -/
inductive TaskPriority
  | High
  | Medium
  | Low
deriving DecidableEq, Repr

/-- Statuses of `Task.status`. -/
inductive TaskStatus
  | pending
  | in_progress
  | completed
deriving DecidableEq, Repr

/-- The `Task` record produced by the pipeline (a `ResolvedTask` in the
specification's vocabulary).  Date-valued fields hold the calendar date that
the source formats as `yyyy-MM-dd`. -/
structure Task where
  id : String
  description : String
  assignedTo : String
  assignedDate : Date
  deadline : Date
  priority : TaskPriority
  status : TaskStatus
deriving DecidableEq, Repr

/-- The `Map<string, Task[]>` of the extractor, as an insertion-ordered
association list. -/
abbrev TaskMap := List (String × List Task)

/-- Append a task to the bucket of `k`, creating the bucket at the end when it
is missing (`if (!m.has(k)) m.set(k, []); m.get(k).push(t)`). -/
def mapPush (m : TaskMap) (k : String) (t : Task) : TaskMap :=
  match m with
  | [] => [(k, [t])]
  | (k', ts) :: rest =>
    if k' = k then (k', ts ++ [t]) :: rest else (k', ts) :: mapPush rest k t

/-- All tasks of the map, in bucket order. -/
def allTasks (m : TaskMap) : List Task :=
  (m.map (·.2)).flatten

/-- Lookup in the employee-name registry (`Map<string,string>.get`). -/
def lookupName (names : List (String × String)) (k : String) : Option String :=
  (names.find? (fun p => p.1 = k)).map (·.2)

/-! ### Tokenisation, priority classification, merge engine
(`textAnalysis.ts` lines 47-270) -/

/-- `tokenize`: lower-case, split on whitespace runs. -/
def tokenize (text : String) : List (List Char) :=
  jsSplitWs (lowerL text.data)

/-- High-priority regex tier of `determinePriority`. -/
def highPriorityTest (lt : List Char) : Bool :=
  containsAnyLit lt ["critical", "urgent", "immediate", "asap"] ||
  inOrderNoNl lt "enterprise".data "client".data ||
  containsAnyLit lt ["prioritize", "top priority"] ||
  (inOrderNoNl lt "fix".data "issue".data || inOrderNoNl lt "issue".data "fix".data) ||
  containsAnyLit lt ["error", "problem", "bug"]

/-- Medium-priority regex tier of `determinePriority`. -/
def mediumPriorityTest (lt : List Char) : Bool :=
  containsAnyLit lt ["investigate", "report", "improve"] ||
  containsAnyLit lt ["optimize", "enhance", "update"] ||
  containsAnyLit lt ["next sprint", "soon", "following"] ||
  containsAnyLit lt ["performance", "bottleneck"]

/-- `determinePriority(text, context)`: the source tokenizes text and context
into `tokens`, but the pattern tiers are tested against `text` alone. -/
def determinePriority (text : String) (context : List String) : TaskPriority :=
  let _tokens := tokenize text ++ (context.map tokenize).flatten
  if highPriorityTest (lowerL text.data) then .High
  else if mediumPriorityTest (lowerL text.data) then .Medium
  else .Low

/-- One alternation step of a leading-phrase strip: try the (lower-case)
phrases in order; a phrase must be followed by at least one whitespace
character (`\s+`), and the whitespace run is removed greedily. -/
def stripLeadAlt (phrases : List String) (l : List Char) : List Char :=
  match phrases with
  | [] => l
  | p :: ps =>
    match stripCI p.data l with
    | some (c :: r) =>
      if isWsChar c then (c :: r).dropWhile isWsChar else stripLeadAlt ps l
    | _ => stripLeadAlt ps l

/-- `normalizeTaskDescription` (lines 219-224). -/
def normalizeTaskDescription (s : String) : String :=
  ⟨jsTrim (stripLeadAlt ["to", "and", "then"]
    (stripLeadAlt
      ["please", "can you", "could you", "would you",
       "i" ++ apoS ++ "ll", "i will", "going to", "plan to"] s.data))⟩

/-- `shouldMergeTasks` (lines 226-231): the tokens of the first description
that occur in the second, counted with multiplicity, against 60% of the
shorter token count (`5 x >= 3 m` is the exact form of `x >= m * 0.6`). -/
def shouldMergeTasks (t1 t2 : Task) : Bool :=
  let d1 := tokenize t1.description
  let d2 := tokenize t2.description
  let commonWords := d1.filter (fun w => d2.contains w)
  5 * commonWords.length ≥ 3 * min d1.length d2.length

/-- `mergeTasks` (lines 233-243): spread of `task1` with description, priority
and deadline recomputed. -/
def mergeTasks (t1 t2 : Task) : Task :=
  { t1 with
    description :=
      if t1.description.length > t2.description.length
      then t1.description else t2.description
    priority :=
      if t1.priority = .High || t2.priority = .High then .High
      else if t1.priority = .Medium || t2.priority = .Medium then .Medium
      else .Low
    deadline :=
      if Date.lt t1.deadline t2.deadline then t1.deadline else t2.deadline }

/-- `result.findIndex` + in-place merge of `deduplicateAndMergeTasks`: merge
`incoming` into the first task of the list similar to `probe`; `none` when no
task matches. -/
def insertTask : List Task → Task → Task → Option (List Task)
  | [], _, _ => none
  | t :: ts, probe, incoming =>
    if shouldMergeTasks t probe then some (mergeTasks t incoming :: ts)
    else
      match insertTask ts probe incoming with
      | some ts' => some (t :: ts')
      | none => none

/-- Loop of `deduplicateAndMergeTasks` (lines 245-270): `result` is the list
built so far, `seen` the set of emitted normalized descriptions. -/
def dedupGo : List Task → List String → List Task → List Task
  | result, _, [] => result
  | result, seen, task :: rest =>
    let nd := normalizeTaskDescription task.description
    if seen.contains nd then dedupGo result seen rest
    else
      match insertTask result { task with description := nd } task with
      | some result' => dedupGo result' seen rest
      | none => dedupGo (result ++ [{ task with description := nd }]) (nd :: seen) rest

/-- `deduplicateAndMergeTasks`. -/
def deduplicateAndMergeTasks (tasks : List Task) : List Task :=
  dedupGo [] [] tasks

/-! ### Generic regex-style scanning -/

/-- Leftmost-match scan: apply the position matcher `f` at every suffix, left
to right (including the empty suffix, as a regex engine does). -/
def scanFor {α : Type} (f : List Char → Option α) : List Char → Option α
  | [] => f []
  | l@(_ :: t) =>
    match f l with
    | some a => some a
    | none => scanFor f t

/-- Lazy capture `(.+?)` stopping before `stop` (used with `(?:stop|$)`):
take at least one character, then stop as soon as the next character is
`stop` or the input ends. -/
def lazyTake (stop : Char) : List Char → List Char
  | [] => []
  | [c] => [c]
  | c :: c' :: rest => if c' = stop then [c] else c :: lazyTake stop (c' :: rest)

/-- `(.+?)(?:stop|$)`: fails on empty input, else captures `lazyTake`. -/
def lazyUntil (stop : Char) (l : List Char) : Option (List Char) :=
  match l with
  | [] => none
  | _ => some (lazyTake stop l)

/-- Try the (lower-case) alternatives in order at the current position and
return the matched alternative. -/
def tryAltsCI : List String → List Char → Option String
  | [], _ => none
  | a :: rest, l => if (stripCI a.data l).isSome then some a else tryAltsCI rest l

/-! ### `extractDate` (lines 72-180) and the weekday table (lines 182-190) -/

/-- The `weekdays` table: full weekday names to Luxon ISO weekday numbers. -/
def weekdayTable : List (String × Nat) :=
  [("sunday", 7), ("monday", 1), ("tuesday", 2), ("wednesday", 3),
   ("thursday", 4), ("friday", 5), ("saturday", 6)]

/-- Lookup in the weekday table (`this.weekdays[key]`). -/
def weekdayLookup (key : List Char) : Option Nat :=
  (weekdayTable.find? (fun p => p.1.data = key)).map (·.2)

/-- Position matcher for `/(\d{4}-\d{2}-\d{2})/`: exactly 4-2-2 digits
separated by hyphens at the current position. -/
def isoRawAt (l : List Char) : Option (Nat × Nat × Nat) :=
  match l with
  | a :: b :: c :: d :: h1 :: e :: f :: h2 :: g :: h :: _ =>
    if [a, b, c, d, e, f, g, h].all Char.isDigit && h1 = '-' && h2 = '-' then
      some (digitsToNat [a, b, c, d], digitsToNat [e, f], digitsToNat [g, h])
    else none
  | _ => none

/-- Capture of `(\w+day)` at the start of `r`: the word-character run up to
and including the last (greedy) occurrence of `day`, with a nonempty stem. -/
def wdayCaptureGo (idx : Nat) (best : Option Nat) : List Char → Option Nat
  | [] => best
  | l@(_ :: t) =>
    let best' :=
      if 1 ≤ idx && (stripCI "day".data l).isSome then some idx else best
    wdayCaptureGo (idx + 1) best' t

/-- Capture of `(\w+day)` at the start of `r`. -/
def wdayCapture (r : List Char) : Option (List Char) :=
  let run := r.takeWhile isWordChar
  (wdayCaptureGo 0 none run).map (fun p => run.take (p + 3))

/-- Position matcher for `/by (\w+day)/i`. -/
def byWeekdayAt (l : List Char) : Option (List Char) :=
  (stripCI "by ".data l).bind wdayCapture

/-- Handler of the `by (\w+day)` pattern: probe the weekday table with the
capture after stripping its first occurrence of `"day"`, then resolve within
the context week, rolling one week forward when the slot is before the
context date. -/
def byWeekdayResult (dateContext : Option Date) (l : List Char) : Option Date :=
  match scanFor byWeekdayAt l with
  | none => none
  | some cap =>
    let day := lowerL cap
    match weekdayLookup (replaceFirstL "day".data [] day) with
    | none => none
    | some w =>
      match dateContext with
      | none => none
      | some ctx =>
        let targetDay := ctx.setISOWeekday w
        some (if Date.lt targetDay ctx then targetDay.addDays 7 else targetDay)

/-- Position matcher for `/next (\w+day)/i`. -/
def nextWeekdayAt (l : List Char) : Option (List Char) :=
  (stripCI "next ".data l).bind wdayCapture

/-- Handler of the `next (\w+day)` pattern: same-week slot plus one week. -/
def nextWeekdayResult (dateContext : Option Date) (l : List Char) : Option Date :=
  match scanFor nextWeekdayAt l with
  | none => none
  | some cap =>
    let day := lowerL cap
    match weekdayLookup (replaceFirstL "day".data [] day) with
    | none => none
    | some w =>
      match dateContext with
      | none => none
      | some ctx => some ((ctx.setISOWeekday w).addDays 7)

/-- Position matcher for `/in (\d+) (day|week|month)s?/i`: amount and unit. -/
def inAmountAt (l : List Char) : Option (Nat × String) :=
  (stripCI "in ".data l).bind fun r =>
    let ds := r.takeWhile Char.isDigit
    let r2 := r.dropWhile Char.isDigit
    if ds.isEmpty then none
    else
      match r2 with
      | ' ' :: r3 => (tryAltsCI ["day", "week", "month"] r3).map fun u => (digitsToNat ds, u)
      | _ => none

/-- Handler of the `in N day|week|month(s)` pattern. -/
def inAmountResult (dateContext : Option Date) (l : List Char) : Option Date :=
  match scanFor inAmountAt l with
  | none => none
  | some (n, u) =>
    match dateContext with
    | none => none
    | some ctx =>
      if u = "day" then some (ctx.addDays n)
      else if u = "week" then some (ctx.addDays (7 * n))
      else if u = "month" then some (ctx.addMonths n)
      else none

/-- Handler of the named-term pattern
`/(today|tomorrow|next week|next month|end of week|end of month)/i`. -/
def namedTermResult (dateContext : Option Date) (l : List Char) : Option Date :=
  match scanFor (tryAltsCI
      ["today", "tomorrow", "next week", "next month", "end of week", "end of month"]) l with
  | none => none
  | some a =>
    match dateContext with
    | none => none
    | some ctx =>
      if a = "today" then some ctx
      else if a = "tomorrow" then some (ctx.addDays 1)
      else if a = "next week" then some ((ctx.addDays 7).startOfWeek)
      else if a = "next month" then some ((ctx.addMonths 1).startOfMonth)
      else if a = "end of week" then some ctx.endOfWeekDate
      else if a = "end of month" then some ctx.endOfMonthDate
      else none

/-- Month alternatives of the explicit-date regex, in source order:
abbreviation plus optional greedy suffix, e.g. `jan(?:uary)?`. -/
def monthAltPairs : List (String × String) :=
  [("jan", "uary"), ("feb", "ruary"), ("mar", "ch"), ("apr", "il"),
   ("may", ""), ("jun", "e"), ("jul", "y"), ("aug", "ust"),
   ("sep", "tember"), ("oct", "ober"), ("nov", "ember"), ("dec", "ember")]

/-- Match one month alternative at the current position; returns the matched
text (lower-case) and the remainder.  The optional suffix is greedy. -/
def matchMonthAlt : List (String × String) → List Char → Option (List Char × List Char)
  | [], _ => none
  | (ab, sfx) :: rest, l =>
    match stripCI ab.data l with
    | some r =>
      match stripCI sfx.data r with
      | some r2 => some ((ab ++ sfx).data, r2)
      | none => some (ab.data, r)
    | none => matchMonthAlt rest l

/-- Optional ordinal suffix `(?:st|nd|rd|th)?` at the current position;
returns (matched lower-case text, remainder). -/
def tryOrdinal (l : List Char) : List Char × List Char :=
  match tryAltsCI ["st", "nd", "rd", "th"] l with
  | some a => (a.data, l.drop 2)
  | none => ([], l)

/-- Optional year group `(?:,? \d{4})?` at the current position; returns
(matched text, remainder). -/
def tryYearGroup (l : List Char) : List Char × List Char :=
  match l with
  | ',' :: ' ' :: a :: b :: c :: d :: rest =>
    if [a, b, c, d].all Char.isDigit then ([',', ' ', a, b, c, d], rest)
    else
      match l with
      | ' ' :: a' :: b' :: c' :: d' :: rest' =>
        if [a', b', c', d'].all Char.isDigit then ([' ', a', b', c', d'], rest')
        else ([], l)
      | _ => ([], l)
  | ' ' :: a :: b :: c :: d :: rest =>
    if [a, b, c, d].all Char.isDigit then ([' ', a, b, c, d], rest)
    else ([], l)
  | _ => ([], l)

/-- After the day digits: `(?:st|nd|rd|th)?(?: of)? <month>(?:,? \d{4})?`,
with backtracking over the optional `" of"`.  Returns the capture text from
the ordinal part on (lower-case). -/
def monthTail (r1 : List Char) : Option (List Char) :=
  let (ordPart, r2) := tryOrdinal r1
  let withOf : Option (List Char) :=
    match stripCI " of".data r2 with
    | some r3 =>
      match r3 with
      | ' ' :: r4 =>
        (matchMonthAlt monthAltPairs r4).map fun (mtxt, r5) =>
          let (ytxt, _) := tryYearGroup r5
          ordPart ++ " of ".data ++ mtxt ++ ytxt
      | _ => none
    | none => none
  match withOf with
  | some cap => some cap
  | none =>
    match r2 with
    | ' ' :: r4 =>
      (matchMonthAlt monthAltPairs r4).map fun (mtxt, r5) =>
        let (ytxt, _) := tryYearGroup r5
        ordPart ++ [' '] ++ mtxt ++ ytxt
    | _ => none

/-- Position matcher for the explicit-date pattern
`/(?:by|on|before) (?:the )?(\d{1,2}(?:st|nd|rd|th)?(?: of)? (?:months))/i`:
returns the capture group, lower-cased. -/
def monthDateAt (l : List Char) : Option (List Char) :=
  (tryAltsCI ["by ", "on ", "before "] l).bind fun pre =>
    let r0 := l.drop pre.length
    let r := match stripCI "the ".data r0 with
      | some r' => r'
      | none => r0
    let ds := r.takeWhile Char.isDigit
    if ds.isEmpty then none
    else
      let tryLen : Nat → Option (List Char) := fun k =>
        if ds.length < k then none
        else (monthTail (r.drop k)).map fun tail => r.take k ++ tail
      match tryLen 2 with
      | some cap => some cap
      | none => tryLen 1

/-- Remove the first occurrence of any of `st|nd|rd|th` (leftmost position,
alternatives in order), modelling `.replace(/(st|nd|rd|th)/, '')`. -/
def removeFirstOrdinal : List Char → List Char
  | [] => []
  | l@(c :: t) =>
    match tryAltsCI ["st", "nd", "rd", "th"] l with
    | some _ => l.drop 2
    | none => c :: removeFirstOrdinal t

/-- Full month names with their numbers, for Luxon's `MMMM` token. -/
def monthFullNames : List (String × Nat) :=
  [("january", 1), ("february", 2), ("march", 3), ("april", 4), ("may", 5),
   ("june", 6), ("july", 7), ("august", 8), ("september", 9), ("october", 10),
   ("november", 11), ("december", 12)]

/-- Luxon `fromFormat(s, 'd MMMM')`: 1-2 day digits, a space, and a full
month name consuming the whole string.  Calendar validity is checked by the
caller (it depends on the default year). -/
def parseDayMonth (l : List Char) : Option (Nat × Nat) :=
  let ds := l.takeWhile Char.isDigit
  let r := l.dropWhile Char.isDigit
  if ds.isEmpty || ds.length > 2 then none
  else
    match r with
    | ' ' :: r2 =>
      (monthFullNames.find? (fun p => p.1.data = r2)).map fun p => (digitsToNat ds, p.2)
    | _ => none

/-- Luxon `fromFormat(s, 'd MMMM yyyy')`: day digits, space, full month name,
space, exactly four year digits, end of string. -/
def parseDayMonthYear (l : List Char) : Option (Nat × Nat × Nat) :=
  let ds := l.takeWhile Char.isDigit
  let r := l.dropWhile Char.isDigit
  if ds.isEmpty || ds.length > 2 then none
  else
    match r with
    | ' ' :: r2 =>
      (monthFullNames.find? (fun p => p.1.data.isPrefixOf r2)).bind fun p =>
        match r2.drop p.1.length with
        | ' ' :: a :: b :: c :: d :: [] =>
          if [a, b, c, d].all Char.isDigit then
            some (digitsToNat ds, p.2, digitsToNat [a, b, c, d])
          else none
        | _ => none
    | _ => none

/-- Handler of the explicit month-name pattern (lines 137-159): clean the
capture, try `d MMMM yyyy`, then `d MMMM` with the year inferred from the
context (rolling one year forward when the result is before the context). -/
def monthNameResult (today : Date) (dateContext : Option Date) (l : List Char) : Option Date :=
  match scanFor monthDateAt l with
  | none => none
  | some cap =>
    let cleaned := replaceFirstL " of ".data [' '] (removeFirstOrdinal cap)
    match parseDayMonthYear cleaned with
    | some (d, m, y) => if isValidDate y m d then some ⟨y, m, d⟩ else none
    | none =>
      match parseDayMonth cleaned with
      | none => none
      | some (d, m) =>
        if isValidDate today.year m d then
          let yr := match dateContext with
            | some c => c.year
            | none => today.year
          if isValidDate yr m d then
            let p : Date := ⟨yr, m, d⟩
            let cmp := match dateContext with
              | some c => c
              | none => today
            some (if Date.lt p cmp then p.addYears 1 else p)
          else none
        else none

/-- `extractDate` (lines 72-180): first an explicit ISO date (only the first
ISO-looking match is considered), then the relative patterns in order, where
a pattern whose handler yields no valid date falls through to the next. -/
def extractDate (today : Date) (dateContext : Option Date) (text : String) : Option Date :=
  let l := text.data
  let relative : Option Date :=
    match byWeekdayResult dateContext l with
    | some d => some d
    | none =>
      match nextWeekdayResult dateContext l with
      | some d => some d
      | none =>
        match inAmountResult dateContext l with
        | some d => some d
        | none =>
          match namedTermResult dateContext l with
          | some d => some d
          | none => monthNameResult today dateContext l
  match scanFor isoRawAt l with
  | some (y, m, d) => if isValidDate y m d then some ⟨y, m, d⟩ else relative
  | none => relative

/-! ### Dialogue segmentation (`parseDialogue`, lines 272-287) -/

/-- One dialogue line. -/
structure Dialogue where
  speaker : String
  content : String
deriving DecidableEq, Repr

/-- Match `^([A-Z]{2}):\s*(.*)` against one line; the content is trimmed. -/
def parseLine (l : List Char) : Option Dialogue :=
  match l with
  | c1 :: c2 :: c3 :: rest =>
    if c1.isUpper && c2.isUpper && c3 = ':' then
      some ⟨⟨[c1, c2]⟩, ⟨jsTrim (rest.dropWhile isWsChar)⟩⟩
    else none
  | _ => none

/-- `parseDialogue`: split on newlines, keep speaker-marked lines. -/
def parseDialogue (text : String) : List Dialogue :=
  (splitOnChar '\n' text.data).filterMap parseLine

/-! ### `isTaskLike` (lines 289-330) -/

/-- Word-boundary test after a match: the remainder must not start with a
word character. -/
def boundaryAfter : List Char → Bool
  | [] => true
  | c :: _ => !isWordChar c

/-- Anchored `^(?:alt|...)\b` test for one (lower-case) alternative. -/
def startsWithWordB (l : List Char) (p : String) : Bool :=
  match stripCI p.data l with
  | some r => boundaryAfter r
  | none => false

/-- Unanchored `\b...\b` scan for one (lower-case) literal: worker carrying
whether the previous character is a word character. -/
def containsWordBGo (p : List Char) (prevIsWord : Bool) : List Char → Bool
  | [] => false
  | l@(c :: t) =>
    (!prevIsWord &&
      (match stripCI p l with
       | some r => boundaryAfter r
       | none => false)) ||
    containsWordBGo p (isWordChar c) t

/-- Unanchored `/\b...\b/i` test. -/
def containsWordB (l : List Char) (p : String) : Bool :=
  containsWordBGo p.data false l

/-- The twelve task-indicator regexes, with `s?` alternations expanded. -/
def taskIndicatorGroups : List (List String) :=
  [["need to", "needs to", "needed to"],
   ["should", "must", "will", "going to"],
   ["implement", "create", "develop", "fix", "update", "review", "test",
    "check", "analyze", "design", "prepare", "coordinate", "setup", "configure"],
   ["task", "tasks", "todo", "todos", "action item", "action items",
    "action", "actions", "item", "items"],
   ["assigned to", "responsible for", "in charge of"],
   ["work on", "handle", "manage", "lead", "oversee"],
   ["schedule", "plan", "organize", "arrange"],
   ["consider", "look into", "investigate", "research"],
   ["follow up", "follow-up", "track", "monitor"],
   ["priority", "deadline", "timeline", "milestone"],
   ["let" ++ apoS ++ "s", "we should", "we need to", "we must"],
   ["action point", "action points", "next step", "next steps",
    "deliverable", "deliverables"]]

/-- The five anchored ignore regexes. -/
def ignoreGroups : List (List String) :=
  [["hi", "hello", "hey", "thanks", "thank you", "okay", "ok", "yes", "no", "maybe"],
   ["i see", "i understand", "got it", "makes sense"],
   ["good morning", "good afternoon", "good evening"],
   ["welcome", "great", "awesome", "perfect"],
   ["bye", "goodbye", "see you", "talk to you"]]

/-- `isTaskLike`: ignore-list first, then minimum trimmed length 10, then the
indicator regexes on the untrimmed text. -/
def isTaskLike (text : String) : Bool :=
  let trimmed := jsTrim text.data
  if ignoreGroups.any (fun g => g.any (startsWithWordB trimmed)) then false
  else if trimmed.length < 10 then false
  else taskIndicatorGroups.any (fun g => g.any (containsWordB text.data))

/-! ### `addTask` (lines 332-380) -/

/-- Cleanup of the raw description in `addTask`: strip leading politeness,
leading connectives, trailing `[.?!]+`, and trim. -/
def cleanupDescription (s : String) : String :=
  ⟨jsTrim
    (((stripLeadAlt ["to", "and", "then"]
        (stripLeadAlt ["please", "can you", "could you", "would you"] s.data)).reverse.dropWhile
          (fun c => c = '.' || c = '?' || c = '!')).reverse)⟩

/-- Denylist test `/^(?:do|make|get|have|be)\s+/i`. -/
def startsGeneric (s : String) : Bool :=
  ["do", "make", "get", "have", "be"].any fun p =>
    match stripCI p.data s.data with
    | some (c :: _) => isWsChar c
    | _ => false

/-- Assignee resolution of `addTask`: exact registry key, then case-insensitive
key, else the sentinel. -/
def resolveAssignee (employeeNames : List (String × String)) (assignee : String) : String :=
  match lookupName employeeNames assignee with
  | some v => v
  | none =>
    match employeeNames.find? (fun p => lowerL p.1.data = lowerL assignee.data) with
    | some p => p.2
    | none => "Unassigned"

/-- `addTask`: the state is the task map together with the number of ids drawn
so far (each `Math.random()` id is the next element of the stream `ids`).
`today` models `DateTime.local().startOf('day')`. -/
def addTask (today : Date) (dateContext : Option Date)
    (employeeNames : List (String × String)) (ids : Nat → String)
    (st : TaskMap × Nat) (assignee description : String) (context : List String) :
    TaskMap × Nat :=
  let (tasks, n) := st
  let defaultDate := today
  let deadline :=
    match extractDate today dateContext description with
    | some d => d
    | none =>
      match extractDate today dateContext (joinSp context) with
      | some d => d
      | none => defaultDate.addDays 7
  let cleanDescription := cleanupDescription description
  if cleanDescription.length < 10 || startsGeneric cleanDescription then (tasks, n)
  else
    let mappedAssignee := resolveAssignee employeeNames assignee
    let task : Task :=
      { id := ids n
        description := cleanDescription
        assignedTo := mappedAssignee
        assignedDate :=
          match dateContext with
          | some c => c
          | none => defaultDate
        deadline := deadline
        priority := determinePriority description context
        status := .pending }
    (mapPush tasks mappedAssignee task, n + 1)

/-! ### `extractTasks` (lines 382-462) -/

/-- Test of `/decisions? for today are[:]?/i`. -/
def decisionListTest (content : String) : Bool :=
  let lc := lowerL content.data
  containsLit "decisions for today are".data lc ||
  containsLit "decision for today are".data lc

/-- Match `^\d+\.\s*(.+)$` and return the capture, including the backtracking
case where `\s*` gives back one whitespace character to `(.+)`. -/
def numberedMatch (s : String) : Option String :=
  let l := s.data
  let ds := l.takeWhile Char.isDigit
  let r1 := l.dropWhile Char.isDigit
  if ds.isEmpty then none
  else
    match r1 with
    | '.' :: r2 =>
      let w := r2.takeWhile isWsChar
      let r3 := r2.dropWhile isWsChar
      if !r3.isEmpty then some ⟨r3⟩
      else
        match w.reverse with
        | c :: _ => some ⟨[c]⟩
        | [] => none
    | _ => none

/-- Assignee extraction of the decision-list pass:
`/^(\w+) will|^(\w+),|for (\w+) to|for (\w+):/i`, with the two anchored
alternatives tried first and the two `for`-alternatives scanned left to
right. -/
def findDecisionAssignee (s : String) : Option String :=
  let l := s.data
  let w := l.takeWhile isWordChar
  let r := l.dropWhile isWordChar
  let anchored : Option String :=
    if w.isEmpty then none
    else if (stripCI " will".data r).isSome then some ⟨w⟩
    else
      match r with
      | ',' :: _ => some ⟨w⟩
      | _ => none
  match anchored with
  | some a => some a
  | none =>
    scanFor (fun l' =>
      (stripCI "for ".data l').bind fun r' =>
        let w' := r'.takeWhile isWordChar
        let r2 := r'.dropWhile isWordChar
        if w'.isEmpty then none
        else if (stripCI " to".data r2).isSome then some (⟨w'⟩ : String)
        else
          match r2 with
          | ':' :: _ => some ⟨w'⟩
          | _ => none) l

/-- Decision-list pass of `extractTasks` (lines 387-417). -/
def decisionPassGo (today : Date) (dateContext : Option Date)
    (employeeNames : List (String × String)) (ids : Nat → String) :
    TaskMap × Nat → Bool → String → List Dialogue → TaskMap × Nat
  | st, _, _, [] => st
  | st, inList, lastSpeaker, d :: rest =>
    if decisionListTest d.content then
      decisionPassGo today dateContext employeeNames ids st true d.speaker rest
    else if inList then
      match numberedMatch d.content with
      | some cap =>
        let a0 := upperStr ((findDecisionAssignee cap).getD "")
        let a := if a0 = "" then lastSpeaker else a0
        decisionPassGo today dateContext employeeNames ids
          (addTask today dateContext employeeNames ids st a cap []) true lastSpeaker rest
      | none =>
        decisionPassGo today dateContext employeeNames ids st false lastSpeaker rest
    else
      decisionPassGo today dateContext employeeNames ids st inList lastSpeaker rest

/-- Pattern `^(\w+), can you (.+?)(?:\?|$)`. -/
def matchP1 (l : List Char) : Option (String × String) :=
  let w := l.takeWhile isWordChar
  let r := l.dropWhile isWordChar
  if w.isEmpty then none
  else
    (stripCI ", can you ".data r).bind fun r2 =>
      (lazyUntil '?' r2).map fun cap => ((⟨w⟩ : String), (⟨cap⟩ : String))

/-- Position matcher for `Action item for (\w+): (.+?)(?:\.|$)`. -/
def matchP2At (l : List Char) : Option (String × String) :=
  (stripCI "action item for ".data l).bind fun r =>
    let w := r.takeWhile isWordChar
    let r2 := r.dropWhile isWordChar
    if w.isEmpty then none
    else
      match r2 with
      | ':' :: ' ' :: r3 =>
        (lazyUntil '.' r3).map fun cap => ((⟨w⟩ : String), (⟨cap⟩ : String))
      | _ => none

/-- Pattern `^(\w+) will (.+?)(?:\.|$)`. -/
def matchP3 (l : List Char) : Option (String × String) :=
  let w := l.takeWhile isWordChar
  let r := l.dropWhile isWordChar
  if w.isEmpty then none
  else
    (stripCI " will ".data r).bind fun r2 =>
      (lazyUntil '.' r2).map fun cap => ((⟨w⟩ : String), (⟨cap⟩ : String))

/-- Pattern `^(\w+) to (.+?)(?:\.|$)`. -/
def matchP4 (l : List Char) : Option (String × String) :=
  let w := l.takeWhile isWordChar
  let r := l.dropWhile isWordChar
  if w.isEmpty then none
  else
    (stripCI " to ".data r).bind fun r2 =>
      (lazyUntil '.' r2).map fun cap => ((⟨w⟩ : String), (⟨cap⟩ : String))

/-- Position matcher for an unanchored `(?:alt|...) (.+?)(?:\.|$)` pattern,
trying all alternatives (with their continuations) at the position. -/
def matchPhraseCaptureAt (alts : List String) (l : List Char) : Option String :=
  match alts with
  | [] => none
  | a :: rest =>
    match
      (stripCI a.data l).bind fun r =>
        match r with
        | ' ' :: r2 => (lazyUntil '.' r2).map fun cap => (⟨cap⟩ : String)
        | _ => none
    with
    | some cap => some cap
    | none => matchPhraseCaptureAt rest l

/-- The ordered task-assignment patterns of the per-utterance pass, already
resolved to (assignee, description) candidates. -/
def taskPatternResults (speaker : String) (l : List Char) : List (Option (String × String)) :=
  [(matchP1 l).map (fun p => (upperStr p.1, p.2)),
   (scanFor matchP2At l).map (fun p => (upperStr p.1, p.2)),
   (matchP3 l).map (fun p => (upperStr p.1, p.2)),
   (matchP4 l).map (fun p => (upperStr p.1, p.2)),
   (scanFor (matchPhraseCaptureAt ["please", "can you", "could you", "would you"]) l).map
     (fun d => (speaker, d)),
   (scanFor (matchPhraseCaptureAt ["going to", "plan to"]) l).map
     (fun d => (speaker, d))]

/-- First pattern whose match passes the `length > 3` guard (a failing guard
falls through to the next pattern, as in the source loop). -/
def firstGoodPattern : List (Option (String × String)) → Option (String × String)
  | [] => none
  | some (a, d) :: rest =>
    if d.length > 3 then some (a, d) else firstGoodPattern rest
  | none :: rest => firstGoodPattern rest

/-- Per-utterance pass of `extractTasks` (lines 420-454), with the running
index used to build the two-before/two-after context window. -/
def dialoguePassGo (today : Date) (dateContext : Option Date)
    (employeeNames : List (String × String)) (ids : Nat → String)
    (dialogues : List Dialogue) :
    TaskMap × Nat → Nat → List Dialogue → TaskMap × Nat
  | st, _, [] => st
  | st, i, d :: rest =>
    let contextWindow :=
      ((dialogues.drop (i - 2)).take (i - (i - 2))).map (·.content) ++
      [d.content] ++
      ((dialogues.drop (i + 1)).take 2).map (·.content)
    let st' :=
      match firstGoodPattern (taskPatternResults d.speaker d.content.data) with
      | some (a, desc) =>
        addTask today dateContext employeeNames ids st a desc contextWindow
      | none =>
        if isTaskLike d.content then
          addTask today dateContext employeeNames ids st d.speaker d.content contextWindow
        else st
    dialoguePassGo today dateContext employeeNames ids dialogues st' (i + 1) rest

/-- `extractTasks`: decision-list pass, per-utterance pass, then per-assignee
deduplication. -/
def extractTasks (today : Date) (dateContext : Option Date)
    (employeeNames : List (String × String)) (ids : Nat → String)
    (text : String) : TaskMap :=
  let dialogues := parseDialogue text
  let st1 := decisionPassGo today dateContext employeeNames ids ([], 0) false "" dialogues
  let st2 := dialoguePassGo today dateContext employeeNames ids dialogues st1 0 dialogues
  st2.1.map fun p => (p.1, deduplicateAndMergeTasks p.2)

/-! ### `TextAnalyzer.analyze` (lines 520-607) and its `AIAnalyzer` input -/

/-- One task record of the `AIAnalysisResponse` returned by
`AIAnalyzer.analyzeText`.  The optional fields model the `|| default`
fallbacks of `analyze` (`task.priority as TaskPriority || 'Medium'`,
`task.deadline || ...`, `task.assignee || ''`). -/
structure AITaskIn where
  description : String
  priority : Option TaskPriority
  deadline : Option Date
  assignee : Option String
deriving DecidableEq, Repr

/-- The `AIAnalysisResponse` of `utils/ai.ts`. -/
structure AIAnalysisResponse where
  summary : String
  tasks : List AITaskIn
  keyPoints : List String
deriving DecidableEq, Repr

/-- Result of `extractMetadata` (lines 609-645), taken as an input of the
model: its parsing concerns only meeting-level header fields. -/
structure Metadata where
  date : Date
  startTime : String
  endTime : String
  participants : List String
deriving DecidableEq, Repr

/-- `Employee` of `src/types`. -/
structure Employee where
  name : String
  tasks : List Task
  totalTasks : Nat
deriving DecidableEq, Repr

/-- `meetingDetails` of the analysis result. -/
structure MeetingDetails where
  date : Date
  startTime : String
  endTime : String
  participants : List String
  summary : String
  keyDecisions : List String
deriving DecidableEq, Repr

/-- `statistics` of the analysis result; `tasksPerPerson` is the exact
rational value of the JavaScript float division. -/
structure Statistics where
  totalTasks : Nat
  highPriorityTasks : Nat
  tasksPerPerson : ℚ
deriving DecidableEq, Repr

/-- The terminal `MeetingAnalysis` value. -/
structure MeetingAnalysis where
  employees : List Employee
  meetingDetails : MeetingDetails
  statistics : Statistics
deriving DecidableEq, Repr

/-- Task-building loop of `analyze` (lines 539-557): one task is pushed per
`aiAnalysis.tasks` entry, with a fresh id from the stream. -/
def buildEmployeeTaskMap (employeeNames : List (String × String)) (ids : Nat → String)
    (today : Date) (metaDate : Date) :
    TaskMap → Nat → List AITaskIn → TaskMap × Nat
  | m, n, [] => (m, n)
  | m, n, t :: rest =>
    let assignee := t.assignee.getD ""
    let task : Task :=
      { id := ids n
        description := t.description
        assignedTo := (lookupName employeeNames assignee).getD assignee
        assignedDate := metaDate
        deadline := t.deadline.getD (today.addDays 7)
        priority := t.priority.getD .Medium
        status := .pending }
    buildEmployeeTaskMap employeeNames ids today metaDate (mapPush m assignee task) (n + 1) rest

/-- Employee-list loop of `analyze` (lines 563-574): keep nonempty buckets
whose assignee is a registry key. -/
def buildEmployees (employeeNames : List (String × String)) : TaskMap → List Employee
  | [] => []
  | (a, ts) :: rest =>
    if ts.length > 0 then
      match lookupName employeeNames a with
      | some nm => ⟨nm, ts, ts.length⟩ :: buildEmployees employeeNames rest
      | none => buildEmployees employeeNames rest
    else buildEmployees employeeNames rest

/-- `TextAnalyzer.analyze`: the external-provider call is modelled by the
`aiResult` input; any provider failure reaches the surrounding `catch`, which
rethrows `Error('Failed to analyze text')`.  On success every task of the
returned analysis is built from `aiResult`'s task list. -/
def analyze (metadata : Metadata) (employeeNames : List (String × String))
    (ids : Nat → String) (today : Date)
    (aiResult : Except String AIAnalysisResponse) : Except String MeetingAnalysis :=
  match aiResult with
  | .error _ => .error "Failed to analyze text"
  | .ok ai =>
    let m := (buildEmployeeTaskMap employeeNames ids today metadata.date [] 0 ai.tasks).1
    let employees := buildEmployees employeeNames m
    let totalTasks : Nat := (employees.map (·.tasks.length)).sum
    let highPriorityTasks : Nat :=
      (employees.map (fun e => (e.tasks.filter (fun t => t.priority = .High)).length)).sum
    let tasksPerPerson : ℚ :=
      if employees.length > 0 then (totalTasks : ℚ) / (employees.length : ℚ) else 0
    .ok
      { employees := employees
        meetingDetails :=
          { date := metadata.date
            startTime := metadata.startTime
            endTime := metadata.endTime
            participants := metadata.participants
            summary := ai.summary
            keyDecisions := ai.keyPoints }
        statistics :=
          { totalTasks := totalTasks
            highPriorityTasks := highPriorityTasks
            tasksPerPerson := tasksPerPerson } }

/-- Observation: all task ids of an analysis result (empty for an error). -/
def analysisIds : Except String MeetingAnalysis → List String
  | .error _ => []
  | .ok r => (r.employees.map (fun e => e.tasks.map (·.id))).flatten

/-- Observation: all task ids held in a task map. -/
def mapIds (m : TaskMap) : List String :=
  (m.map (fun p => p.2.map (·.id))).flatten

/-! ### Concrete fixtures used by the claim theorems -/

/-- The end-to-end example transcript of the specification. -/
def c1text : String :=
  "JS: Tom, can you fix the Redis caching issue by Thursday?\nTW: Sure, I" ++
    apoS ++ "ll handle that."

/-- The example roster `John Smith (JS), Tom Wilson (TW)`, as the participant
registry it produces. -/
def c1roster : List (String × String) := [("JS", "John Smith"), ("TW", "Tom Wilson")]

/-- A concrete injective id stream (`Math.random()` draws that never repeat). -/
def idsRep : Nat → String := fun n => ⟨List.replicate n 'a'⟩

/-- The pipeline output on the specification's end-to-end example, with both
the meeting date context and the processing date equal to 2025-04-22. -/
def c1result : TaskMap :=
  extractTasks ⟨2025, 4, 22⟩ (some ⟨2025, 4, 22⟩) c1roster idsRep c1text

/-- A task fixture with the given id and description. -/
def mkTask (i d : String) : Task :=
  ⟨i, d, "X", ⟨2025, 4, 22⟩, ⟨2025, 5, 1⟩, .Low, .pending⟩

/-- Merge-counterexample list: the third description overlaps the first, and
the merged record then overlaps the second. -/
def c5list : List Task :=
  [mkTask "t1" "a b", mkTask "t2" "c d", mkTask "t3" "a b c d e"]

/-- A list of mutually dissimilar tasks, on which merge is a fixed point. -/
def c5goodlist : List Task :=
  [mkTask "w1" "write the summary", mkTask "w2" "refactor deploy scripts"]

/-- Modelled from the spec: the count of shared tokens of two descriptions
(case-insensitive, whitespace-split), i.e. the number of distinct tokens
common to both. -/
def specSharedTokenCount (d1 d2 : String) : Nat :=
  ((tokenize d1).dedup.filter (fun w => (tokenize d2).contains w)).length

/-- Modelled from the spec: "similar enough to merge" — shared-token count at
least 60% of the shorter description's token count. -/
def specSimilarEnough (d1 d2 : String) : Bool :=
  5 * specSharedTokenCount d1 d2 ≥
    3 * min (tokenize d1).length (tokenize d2).length

/-- Counterexample pair for the similarity rule: the first description repeats
one token. -/
def c6taskA : Task := mkTask "x1" "a a"

/-- Counterexample partner of `c6taskA`. -/
def c6taskB : Task := mkTask "x2" "a b c"

/-- Witness pair for the corrected similarity rule. -/
def c6taskC : Task := mkTask "x3" "deploy the cache fix"

/-- Witness partner of `c6taskC`. -/
def c6taskD : Task := mkTask "x4" "deploy the cache fix tomorrow"

/-- Tie-break counterexample: same description length as `c7t2`. -/
def c7t1 : Task := ⟨"id1", "alpha beta x", "X", ⟨2025, 4, 22⟩, ⟨2025, 5, 1⟩, .Low, .pending⟩

/-- Tie-break counterexample partner: same length, different text. -/
def c7t2 : Task := ⟨"id2", "alpha beta y", "X", ⟨2025, 4, 22⟩, ⟨2025, 5, 3⟩, .Medium, .pending⟩

/-- Numeric rank of a priority (`High` most urgent). -/
def priorityRank : TaskPriority → Nat
  | .Low => 0
  | .Medium => 1
  | .High => 2

/-- A description that resolves to no date. -/
def c4desc : String := "prepare the quarterly figures"

/-- Metadata fixture for the aggregator claims. -/
def meta0 : Metadata := ⟨⟨2025, 4, 22⟩, "10:00 AM", "11:00 AM", ["John Smith"]⟩

/-- A provider response with two tasks for the same known assignee. -/
def aiTwoTasks : AIAnalysisResponse :=
  ⟨"summary",
   [⟨"update the cache layer", none, none, some "JS"⟩,
    ⟨"write the release notes", none, none, some "JS"⟩],
   []⟩

/-- A provider response with no tasks. -/
def aiNoTasks : AIAnalysisResponse := ⟨"summary", [], []⟩

/-! ## Theorems -/

/-! ### Calendar sanity checks -/

example : Date.isoWeekday ⟨2025, 4, 22⟩ = 2 := by decide
example : Date.isoWeekday ⟨2025, 4, 21⟩ = 1 := by decide
example : Date.addDays ⟨2025, 4, 22⟩ 7 = ⟨2025, 4, 29⟩ := by decide
example : Date.addDays ⟨2024, 2, 27⟩ 3 = ⟨2024, 3, 1⟩ := by decide
example : Date.addDays ⟨2024, 12, 30⟩ 3 = ⟨2025, 1, 2⟩ := by decide

/-! ### Helper lemmas -/

/-- Rebuilding a task from its own description is the identity. -/
theorem task_eta_desc (t : Task) : { t with description := t.description } = t := rfl

/-- `insertTask` finds nothing when no accepted task is similar to the probe. -/
theorem insertTask_eq_none {result : List Task} {probe incoming : Task}
    (h : ∀ r ∈ result, shouldMergeTasks r probe = false) :
    insertTask result probe incoming = none := by
  induction result with
  | nil => rfl
  | cons t ts ih =>
    have h1 : shouldMergeTasks t probe = false := h t (List.mem_cons_self t ts)
    have h2 : insertTask ts probe incoming = none :=
      ih fun r hr => h r (List.mem_cons_of_mem t hr)
    simp [insertTask, h1, h2]

/-- The dedup loop appends its input unchanged when every description is a
normalization fixed point not yet seen, no accepted task is similar to any
input task, and the input tasks are pairwise dissimilar with pairwise distinct
descriptions. -/
theorem dedupGo_noop :
    ∀ (ts result : List Task) (seen : List String),
      (∀ t ∈ ts, normalizeTaskDescription t.description = t.description) →
      (∀ t ∈ ts, seen.contains t.description = false) →
      (∀ r ∈ result, ∀ t ∈ ts, shouldMergeTasks r t = false) →
      ts.Pairwise (fun a b => shouldMergeTasks a b = false) →
      ts.Pairwise (fun a b => a.description ≠ b.description) →
      dedupGo result seen ts = result ++ ts := by
  intro ts
  induction ts with
  | nil => intro result seen _ _ _ _ _; simp [dedupGo]
  | cons t rest ih =>
    intro result seen hnorm hseen hres hmerge hdesc
    have hn : normalizeTaskDescription t.description = t.description :=
      hnorm t (List.mem_cons_self t rest)
    have hs : seen.contains t.description = false := hseen t (List.mem_cons_self t rest)
    have hins : insertTask result t t = none :=
      insertTask_eq_none fun r hr => hres r hr t (List.mem_cons_self t rest)
    have hstep : dedupGo result seen (t :: rest) =
        dedupGo (result ++ [t]) (t.description :: seen) rest := by
      simp only [dedupGo, hn, task_eta_desc, hs, hins, Bool.false_eq_true, if_false]
    rw [hstep]
    have hrec : dedupGo (result ++ [t]) (t.description :: seen) rest =
        (result ++ [t]) ++ rest := by
      apply ih
      · intro t' ht'; exact hnorm t' (List.mem_cons_of_mem t ht')
      · intro t' ht'
        have hne : t.description ≠ t'.description :=
          (List.pairwise_cons.mp hdesc).1 t' ht'
        have h2 := hseen t' (List.mem_cons_of_mem t ht')
        have h3 : t'.description ∉ seen := by
          simpa [List.contains, List.elem_eq_mem] using h2
        simp [List.contains, List.elem_eq_mem, hne.symm, h3]
      · intro r hr t' ht'
        rcases List.mem_append.mp hr with hr' | hr'
        · exact hres r hr' t' (List.mem_cons_of_mem t ht')
        · have : r = t := by simpa using hr'
          subst this
          exact (List.pairwise_cons.mp hmerge).1 t' ht'
      · exact (List.pairwise_cons.mp hmerge).2
      · exact (List.pairwise_cons.mp hdesc).2
    rw [hrec]
    simp

/-- The tasks of a cons bucket. -/
theorem allTasks_cons (k : String) (ts : List Task) (m : TaskMap) :
    allTasks ((k, ts) :: m) = ts ++ allTasks m := rfl

/-- Tasks of a map after a push: an old task or the pushed one. -/
theorem mem_allTasks_mapPush :
    ∀ {m : TaskMap} {k : String} {x t : Task},
      t ∈ allTasks (mapPush m k x) → t ∈ allTasks m ∨ t = x := by
  intro m
  induction m with
  | nil =>
    intro k x t h
    simp only [mapPush, allTasks_cons] at h
    rcases List.mem_append.mp h with h' | h'
    · exact Or.inr (by simpa using h')
    · simp [allTasks] at h'
  | cons p rest ih =>
    intro k x t h
    obtain ⟨k', ts⟩ := p
    by_cases hk : k' = k
    · simp only [mapPush, if_pos hk, allTasks_cons] at h
      rcases List.mem_append.mp h with h' | h'
      · rcases List.mem_append.mp h' with h'' | h''
        · exact Or.inl (List.mem_append_left _ h'')
        · exact Or.inr (by simpa using h'')
      · exact Or.inl (by rw [allTasks_cons]; exact List.mem_append_right _ h')
    · simp only [mapPush, if_neg hk, allTasks_cons] at h
      rcases List.mem_append.mp h with h' | h'
      · exact Or.inl (by rw [allTasks_cons]; exact List.mem_append_left _ h')
      · rcases ih h' with h'' | h''
        · exact Or.inl (by rw [allTasks_cons]; exact List.mem_append_right _ h'')
        · exact Or.inr h''

/-- Ids after a push: a permutation of the old ids plus the new one. -/
theorem mapIds_mapPush (m : TaskMap) (k : String) (t : Task) :
    (mapIds (mapPush m k t)).Perm (mapIds m ++ [t.id]) := by
  induction m with
  | nil => simp [mapIds, mapPush]
  | cons p rest ih =>
    obtain ⟨k', ts⟩ := p
    by_cases hk : k' = k
    · simp only [mapPush, if_pos hk, mapIds, List.map_cons, List.flatten_cons]
      rw [List.map_append, List.append_assoc, List.append_assoc]
      refine List.Perm.append_left _ ?_
      simpa using (@List.perm_append_comm _ [t.id]
        ((rest.map fun p => p.2.map (·.id)).flatten))
    · simp only [mapPush, if_neg hk, mapIds, List.map_cons, List.flatten_cons]
      rw [List.append_assoc]
      exact List.Perm.append_left _ (by simpa [mapIds] using ih)

/-- The ids created by the task-building loop of `analyze` are the stream
values at the next `ts.length` indices. -/
theorem buildEmployeeTaskMap_ids_perm
    (emp : List (String × String)) (ids : Nat → String) (today metaDate : Date) :
    ∀ (ts : List AITaskIn) (m : TaskMap) (n : Nat),
      (mapIds (buildEmployeeTaskMap emp ids today metaDate m n ts).1).Perm
        (mapIds m ++ (List.range' n ts.length).map ids) := by
  intro ts
  induction ts with
  | nil => intro m n; simp [buildEmployeeTaskMap]
  | cons t rest ih =>
    intro m n
    simp only [buildEmployeeTaskMap, List.length_cons, List.range', List.map_cons]
    refine ((ih _ (n + 1)).trans ?_)
    refine ((mapIds_mapPush m _ _).append_right _).trans ?_
    rw [List.append_assoc]
    exact List.Perm.append_left _ (List.Perm.refl _)

/-- The ids listed in the employee view form a sublist of the map's ids. -/
theorem buildEmployees_ids_sublist (emp : List (String × String)) :
    ∀ m : TaskMap,
      ((buildEmployees emp m).map (fun e => e.tasks.map (·.id))).flatten.Sublist (mapIds m) := by
  intro m
  induction m with
  | nil => simp [buildEmployees, mapIds]
  | cons p rest ih =>
    obtain ⟨a, ts⟩ := p
    by_cases hl : ts.length > 0
    · cases hname : lookupName emp a with
      | some nm =>
        simp only [buildEmployees, hl, if_true, hname, List.map_cons, List.flatten_cons,
          mapIds]
        exact ih.append_left _
      | none =>
        simp only [buildEmployees, hl, if_true, hname, mapIds, List.map_cons,
          List.flatten_cons]
        exact ih.trans (List.sublist_append_right _ _)
    · simp only [buildEmployees, hl, if_false, mapIds, List.map_cons, List.flatten_cons]
      exact ih.trans (List.sublist_append_right _ _)

/-- The concrete id stream `idsRep` never repeats. -/
theorem idsRep_injective : Function.Injective idsRep := by
  intro a b h
  have := congrArg (fun s => s.data.length) h
  simpa [idsRep] using this

/-! ### Claim C1 -/

/-- Claim C1, counterexample: on the end-to-end example transcript the
pipeline produces two tasks, not one; no task assigned to "Tom Wilson" has a
description containing "fix the Redis caching issue"; and no task gets the
deadline 2025-04-24. -/
theorem c1_counterexample :
    (allTasks c1result).length = 2 ∧
    (allTasks c1result).filter (fun t =>
      t.assignedTo = "Tom Wilson" &&
      containsLit "fix the redis caching issue".data t.description.data) = [] ∧
    (allTasks c1result).all (fun t => t.deadline ≠ ⟨2025, 4, 24⟩) = true := by
  decide

/-- Claim C1 (corrected): on the example transcript with meeting-date context
and processing date 2025-04-22, the pipeline produces exactly two tasks: the
request line yields a High-priority task assigned to "Unassigned" (the first
name "Tom" is not a registry code) with description "fix the Redis caching
issue by Thursday" and deadline 2025-04-29 (processing date + 7, since
"by Thursday" never resolves), and the acknowledgement line yields a
Low-priority task for Tom Wilson. -/
theorem c1_actual_output :
    c1result =
      [("Unassigned",
        [⟨"", "fix the Redis caching issue by Thursday", "Unassigned",
          ⟨2025, 4, 22⟩, ⟨2025, 4, 29⟩, .High, .pending⟩]),
       ("Tom Wilson",
        [⟨"a", "Sure, I" ++ apoS ++ "ll handle that", "Tom Wilson",
          ⟨2025, 4, 22⟩, ⟨2025, 4, 29⟩, .Low, .pending⟩])] := by
  decide

/-! ### Claim C2 -/

/-- Claim C2 (code bug): `extractDate` never resolves `"by <weekday>"` for any
real weekday name, because the handler strips the suffix `"day"` from the
captured word before probing the `weekdays` table, whose keys are the full
weekday names.  In particular "by Friday" against the Monday context
2025-04-21 yields no date (the specified answer is 2025-04-25). -/
theorem c2_by_weekday_never_resolves :
    (weekdayTable.all fun p =>
      (weekdayLookup (replaceFirstL "day".data [] (lowerL p.1.data))).isNone) = true ∧
    weekdayLookup "friday".data = some 5 ∧
    extractDate ⟨2025, 4, 21⟩ (some ⟨2025, 4, 21⟩) "by Friday" = none := by
  decide

/-! ### Claim C3 -/

/-- Claim C3, counterexample: a provider failure is rethrown by `analyze` as
the pipeline error "Failed to analyze text" instead of degrading to the
heuristic analysis; and with a provider response holding no tasks the
analysis has no tasks at all, although the deterministic heuristics find two
tasks on the same transcript. -/
theorem c3_counterexample :
    analyze meta0 c1roster idsRep ⟨2025, 4, 22⟩ (.error "provider unavailable") =
      .error "Failed to analyze text" ∧
    analysisIds (analyze meta0 c1roster idsRep ⟨2025, 4, 22⟩ (.ok aiNoTasks)) = [] ∧
    (allTasks c1result).length = 2 :=
  ⟨rfl, rfl, by decide⟩

/-- Claim C3 (corrected): `analyze` surfaces a provider failure as the
pipeline error "Failed to analyze text", and the provider response is the
sole source of tasks — with an empty provider task list the returned
analysis has no employees. -/
theorem c3_provider_failure_propagates (metadata : Metadata)
    (emp : List (String × String)) (ids : Nat → String) (today : Date)
    (e : String) (ai : AIAnalysisResponse) (h : ai.tasks = []) :
    analyze metadata emp ids today (.error e) = .error "Failed to analyze text" ∧
    ∃ r, analyze metadata emp ids today (.ok ai) = .ok r ∧ r.employees = [] := by
  refine ⟨rfl, ?_⟩
  obtain ⟨s, tasks, kp⟩ := ai
  simp only at h
  subst h
  exact ⟨_, rfl, rfl⟩

/-- Witness for Claim C3 at a concrete provider outcome. -/
theorem c3_witness :
    analyze meta0 c1roster idsRep ⟨2025, 4, 22⟩ (.error "boom") =
      .error "Failed to analyze text" ∧
    ∃ r, analyze meta0 c1roster idsRep ⟨2025, 4, 22⟩ (.ok aiNoTasks) = .ok r ∧
      r.employees = [] :=
  c3_provider_failure_propagates meta0 c1roster idsRep ⟨2025, 4, 22⟩ "boom" aiNoTasks rfl

/-! ### Claim C4 -/

/-- Claim C4, counterexample: with processing date 2025-05-01 and meeting
date context 2025-04-22, a task whose own text and context resolve to no
date gets deadline 2025-05-08 = processing date + 7, while its assigned date
is the context 2025-04-22; `assignedDate + 7` would be 2025-04-29. -/
theorem c4_counterexample :
    extractDate ⟨2025, 5, 1⟩ (some ⟨2025, 4, 22⟩) c4desc = none ∧
    extractDate ⟨2025, 5, 1⟩ (some ⟨2025, 4, 22⟩) (joinSp []) = none ∧
    allTasks (addTask ⟨2025, 5, 1⟩ (some ⟨2025, 4, 22⟩) [] idsRep (([] : TaskMap), 0)
        "RP" c4desc []).1 =
      [⟨"", c4desc, "Unassigned", ⟨2025, 4, 22⟩, ⟨2025, 5, 8⟩, .Low, .pending⟩] ∧
    Date.addDays ⟨2025, 4, 22⟩ 7 ≠ (⟨2025, 5, 8⟩ : Date) := by
  decide

/-- Claim C4 (corrected): when neither the candidate's own text nor its
context window resolves to a date, every task the call adds has deadline
processing-date + 7 days (not `assignedDate + 7`; the two agree exactly when
the meeting date context is absent or equals the processing date), while
`assignedDate` is the meeting date context when present. -/
theorem c4_default_deadline_from_today (today : Date) (dateContext : Option Date)
    (emp : List (String × String)) (ids : Nat → String) (st : TaskMap × Nat)
    (assignee description : String) (context : List String)
    (h1 : extractDate today dateContext description = none)
    (h2 : extractDate today dateContext (joinSp context) = none) :
    ∀ t ∈ allTasks (addTask today dateContext emp ids st assignee description context).1,
      t ∈ allTasks st.1 ∨
        (t.deadline = today.addDays 7 ∧ t.assignedDate = dateContext.getD today) := by
  obtain ⟨tasks, n⟩ := st
  intro t ht
  simp only [addTask, h1, h2] at ht
  split at ht
  · exact Or.inl ht
  · rcases mem_allTasks_mapPush ht with h' | h'
    · exact Or.inl h'
    · subst h'
      refine Or.inr ⟨rfl, ?_⟩
      cases dateContext <;> rfl

/-- Witness for Claim C4: the task created by a concrete call either was
already present (it was not) or carries the processing-date + 7 deadline and
the context assigned date. -/
theorem c4_witness :
    (⟨"", c4desc, "Unassigned", ⟨2025, 4, 22⟩, ⟨2025, 5, 8⟩, .Low, .pending⟩ : Task) ∈
        allTasks ([] : TaskMap) ∨
      ((⟨"", c4desc, "Unassigned", ⟨2025, 4, 22⟩, ⟨2025, 5, 8⟩, .Low, .pending⟩ : Task).deadline =
          Date.addDays ⟨2025, 5, 1⟩ 7 ∧
        (⟨"", c4desc, "Unassigned", ⟨2025, 4, 22⟩, ⟨2025, 5, 8⟩, .Low, .pending⟩ : Task).assignedDate =
          (some (⟨2025, 4, 22⟩ : Date)).getD ⟨2025, 5, 1⟩) :=
  c4_default_deadline_from_today ⟨2025, 5, 1⟩ (some ⟨2025, 4, 22⟩) [] idsRep
    (([] : TaskMap), 0) "RP" c4desc [] (by decide) (by decide)
    ⟨"", c4desc, "Unassigned", ⟨2025, 4, 22⟩, ⟨2025, 5, 8⟩, .Low, .pending⟩ (by decide)

/-! ### Claim C5 -/

/-- Claim C5, counterexample: merging `c5list` once leaves two mutually
similar records (the first absorbs the third and its description grows), so a
second merge collapses them — `merge (merge L) ≠ merge L`. -/
theorem c5_counterexample :
    deduplicateAndMergeTasks (deduplicateAndMergeTasks c5list) ≠
      deduplicateAndMergeTasks c5list := by
  decide

/-- Claim C5 (corrected): the merge is not idempotent in general; a second
merge is a no-op when the first merge's output is in normal form — every
description is a normalization fixed point, descriptions are pairwise
distinct, and no earlier record is similar to a later one.  A single merge
does not always establish this (see the counterexample). -/
theorem c5_merge_idempotent_on_normal_form (L : List Task)
    (h1 : ∀ t ∈ deduplicateAndMergeTasks L,
      normalizeTaskDescription t.description = t.description)
    (h2 : (deduplicateAndMergeTasks L).Pairwise (fun a b => a.description ≠ b.description))
    (h3 : (deduplicateAndMergeTasks L).Pairwise (fun a b => shouldMergeTasks a b = false)) :
    deduplicateAndMergeTasks (deduplicateAndMergeTasks L) = deduplicateAndMergeTasks L := by
  have h := dedupGo_noop (deduplicateAndMergeTasks L) [] [] h1
    (by intro t _; rfl) (by intro r hr; cases hr) h3 h2
  simpa [deduplicateAndMergeTasks] using h

/-- Witness for Claim C5 on a list already in normal form. -/
theorem c5_witness :
    deduplicateAndMergeTasks (deduplicateAndMergeTasks c5goodlist) =
      deduplicateAndMergeTasks c5goodlist :=
  c5_merge_idempotent_on_normal_form c5goodlist (by decide) (by decide) (by decide)

/-! ### Claim C6 -/

/-- Claim C6, counterexample: the descriptions "a a" and "a b c" share one
token, below 60% of the shorter's two tokens, so by the claim both should
survive; the code counts the duplicated token of the accepted description
twice and merges them into one record. -/
theorem c6_counterexample :
    specSimilarEnough "a a" "a b c" = false ∧
    shouldMergeTasks c6taskA c6taskB = true ∧
    (deduplicateAndMergeTasks [c6taskA, c6taskB]).length = 1 := by
  decide

/-- Claim C6 (corrected): two descriptions merge exactly when the number of
tokens of the already-accepted description that occur in the incoming one —
counted with multiplicity in the accepted description, an asymmetric measure
— is at least 60% of the shorter token count; under that corrected rule a
pair collapses to one record exactly when the measure passes, else both
survive. -/
theorem c6_similarity_corrected (t1 t2 : Task)
    (h1 : normalizeTaskDescription t1.description = t1.description)
    (h2 : normalizeTaskDescription t2.description = t2.description)
    (h3 : t1.description ≠ t2.description) :
    (shouldMergeTasks t1 t2 = true ↔
      5 * ((tokenize t1.description).filter
          (fun w => (tokenize t2.description).contains w)).length ≥
        3 * min (tokenize t1.description).length (tokenize t2.description).length) ∧
    (deduplicateAndMergeTasks [t1, t2]).length =
      if shouldMergeTasks t1 t2 then 1 else 2 := by
  constructor
  · simp [shouldMergeTasks]
  · have hc : (([t1.description] : List String).contains t2.description) = false := by
      simp [List.contains, List.elem_eq_mem, Ne.symm h3]
    by_cases hm : shouldMergeTasks t1 t2 = true
    · simp [deduplicateAndMergeTasks, dedupGo, h1, h2, task_eta_desc, insertTask, hm, hc,
        Ne.symm h3]
    · have hm' : shouldMergeTasks t1 t2 = false := by
        simpa using hm
      simp [deduplicateAndMergeTasks, dedupGo, h1, h2, task_eta_desc, insertTask, hm', hc,
        Ne.symm h3]

/-- Witness of Claim C6 at a concrete similar pair. -/
theorem c6_witness :
    (shouldMergeTasks c6taskC c6taskD = true ↔
      5 * ((tokenize c6taskC.description).filter
          (fun w => (tokenize c6taskD.description).contains w)).length ≥
        3 * min (tokenize c6taskC.description).length
          (tokenize c6taskD.description).length) ∧
    (deduplicateAndMergeTasks [c6taskC, c6taskD]).length =
      if shouldMergeTasks c6taskC c6taskD then 1 else 2 :=
  c6_similarity_corrected c6taskC c6taskD (by decide) (by decide) (by decide)

/-! ### Claim C7 -/

/-- Claim C7, counterexample: on a length tie the surviving description is the
second-seen one, not the first-seen as claimed. -/
theorem c7_counterexample :
    c7t1.description.length = c7t2.description.length ∧
    (mergeTasks c7t1 c7t2).description = c7t2.description ∧
    (mergeTasks c7t1 c7t2).description ≠ c7t1.description := by
  decide

/-- Claim C7 (corrected): the surviving record has the longer description
(the second-seen on a length tie), the most urgent of the two priorities
under High > Medium > Low, the earlier of the two deadlines, and the
first-seen task's id. -/
theorem c7_merge_policy (t1 t2 : Task) :
    (mergeTasks t1 t2).description.length =
      max t1.description.length t2.description.length ∧
    ((mergeTasks t1 t2).description = t1.description ∨
      (mergeTasks t1 t2).description = t2.description) ∧
    (t1.description.length = t2.description.length →
      (mergeTasks t1 t2).description = t2.description) ∧
    priorityRank (mergeTasks t1 t2).priority =
      max (priorityRank t1.priority) (priorityRank t2.priority) ∧
    (mergeTasks t1 t2).deadline.toDays = min t1.deadline.toDays t2.deadline.toDays ∧
    ((mergeTasks t1 t2).deadline = t1.deadline ∨
      (mergeTasks t1 t2).deadline = t2.deadline) ∧
    (mergeTasks t1 t2).id = t1.id := by
  refine ⟨?_, ?_, ?_, ?_, ?_, ?_, rfl⟩
  · by_cases h : t1.description.length > t2.description.length
    · simp [mergeTasks, h, Nat.max_eq_left (Nat.le_of_lt h)]
    · simp [mergeTasks, h, Nat.max_eq_right (Nat.le_of_not_lt h)]
  · by_cases h : t1.description.length > t2.description.length
    · exact Or.inl (by simp [mergeTasks, h])
    · exact Or.inr (by simp [mergeTasks, h])
  · intro h
    simp [mergeTasks, h, lt_irrefl]
  · obtain ⟨i1, d1, a1, ad1, dl1, p1, s1⟩ := t1
    obtain ⟨i2, d2, a2, ad2, dl2, p2, s2⟩ := t2
    cases p1 <;> cases p2 <;> rfl
  · by_cases h : t1.deadline.toDays < t2.deadline.toDays
    · simp [mergeTasks, Date.lt, h, Nat.min_eq_left (Nat.le_of_lt h)]
    · simp [mergeTasks, Date.lt, h, Nat.min_eq_right (Nat.le_of_not_lt h)]
  · by_cases h : t1.deadline.toDays < t2.deadline.toDays
    · exact Or.inl (by simp [mergeTasks, Date.lt, h])
    · exact Or.inr (by simp [mergeTasks, Date.lt, h])

/-- Witness of Claim C7 at a concrete pair. -/
theorem c7_witness :
    (mergeTasks c7t1 c7t2).description.length =
      max c7t1.description.length c7t2.description.length ∧
    ((mergeTasks c7t1 c7t2).description = c7t1.description ∨
      (mergeTasks c7t1 c7t2).description = c7t2.description) ∧
    (c7t1.description.length = c7t2.description.length →
      (mergeTasks c7t1 c7t2).description = c7t2.description) ∧
    priorityRank (mergeTasks c7t1 c7t2).priority =
      max (priorityRank c7t1.priority) (priorityRank c7t2.priority) ∧
    (mergeTasks c7t1 c7t2).deadline.toDays =
      min c7t1.deadline.toDays c7t2.deadline.toDays ∧
    ((mergeTasks c7t1 c7t2).deadline = c7t1.deadline ∨
      (mergeTasks c7t1 c7t2).deadline = c7t2.deadline) ∧
    (mergeTasks c7t1 c7t2).id = c7t1.id :=
  c7_merge_policy c7t1 c7t2

/-! ### Claim C8 -/

/-- Claim C8, counterexample: with colliding `Math.random()` draws the two
tasks of one run share an id — uniqueness is not enforced by the code. -/
theorem c8_counterexample :
    analysisIds (analyze meta0 c1roster (fun _ => "dup") ⟨2025, 4, 22⟩
      (.ok aiTwoTasks)) = ["dup", "dup"] ∧
    ¬ (analysisIds (analyze meta0 c1roster (fun _ => "dup") ⟨2025, 4, 22⟩
        (.ok aiTwoTasks))).Nodup := by
  exact ⟨rfl, by decide⟩

/-- Claim C8 (corrected): the ids of a run are successive pseudo-random
draws; they are pairwise distinct whenever the draw stream is injective, but
the code performs no uniqueness check, so colliding draws yield duplicate
ids. -/
theorem c8_ids_distinct_of_injective_draws (metadata : Metadata)
    (emp : List (String × String)) (ids : Nat → String) (today : Date)
    (aiResult : Except String AIAnalysisResponse)
    (hinj : Function.Injective ids) :
    (analysisIds (analyze metadata emp ids today aiResult)).Nodup := by
  cases aiResult with
  | error e => exact List.nodup_nil
  | ok ai =>
    have hperm := buildEmployeeTaskMap_ids_perm emp ids today metadata.date ai.tasks [] 0
    have htarget : (((List.range' 0 ai.tasks.length).map ids)).Nodup :=
      List.Nodup.map hinj (List.nodup_range' 0 ai.tasks.length)
    have hnodup :
        (mapIds (buildEmployeeTaskMap emp ids today metadata.date [] 0 ai.tasks).1).Nodup := by
      refine (List.Perm.nodup_iff hperm).mpr ?_
      simpa [mapIds] using htarget
    have hsub := buildEmployees_ids_sublist emp
      ((buildEmployeeTaskMap emp ids today metadata.date [] 0 ai.tasks).1)
    exact hnodup.sublist hsub

/-- Witness of Claim C8 with an injective draw stream. -/
theorem c8_witness :
    (analysisIds (analyze meta0 c1roster idsRep ⟨2025, 4, 22⟩ (.ok aiTwoTasks))).Nodup :=
  c8_ids_distinct_of_injective_draws meta0 c1roster idsRep ⟨2025, 4, 22⟩
    (.ok aiTwoTasks) idsRep_injective

/-! ### Claim C9 -/

/-- Claim C9 (confirmed): `determinePriority` returns the same priority for
any two context windows — the tiered patterns are tested against the
description alone, even though the context is tokenized. -/
theorem c9_priority_ignores_context (text : String) (c1 c2 : List String) :
    determinePriority text c1 = determinePriority text c2 := rfl

/-! ### Claim C10 -/

/-- Claim C10 (confirmed): a merge takes `assignedTo`, `assignedDate`,
`status` and `id` unchanged from the first-seen task. -/
theorem c10_merge_frame_fields (t1 t2 : Task) :
    (mergeTasks t1 t2).assignedTo = t1.assignedTo ∧
    (mergeTasks t1 t2).assignedDate = t1.assignedDate ∧
    (mergeTasks t1 t2).status = t1.status ∧
    (mergeTasks t1 t2).id = t1.id :=
  ⟨rfl, rfl, rfl, rfl⟩

end CS
